import Mathlib

/-!
Shallow embedding of `src/fai.py`, a batch ID-document extraction pipeline.

Python values flowing through the pipeline (the result of `json.loads`, the
entries of the result dictionaries) are modelled by the inductive `Value`;
JSON numbers are modelled as integers (no claim depends on floats).
Python dictionaries are modelled as association lists `PyDict`; Python
dictionaries have unique keys, and lookups take the first matching entry.
External capabilities (the Fireworks LLM call, `json.loads`, PIL image
open/crop/save) are passed in as explicit parameters returning `Except`.
-/

/-- Model of a Python/JSON value as it appears in the pipeline. -/
inductive Value where
  | vNull : Value
  | vBool : Bool → Value
  | vNum : Int → Value
  | vStr : String → Value
  | vList : List Value → Value
  | vDict : List (String × Value) → Value

/-- Model of a Python dict with string keys, as produced by `json.loads`. -/
abbrev PyDict := List (String × Value)

/-- Model of Python `d.get(k)` / `d[k]`: the first entry with key `k`. -/
def dGet {β : Type} : List (String × β) → String → Option β
  | [], _ => none
  | e :: t, k => if e.1 = k then some e.2 else dGet t k

/-- Model of Python `d[k] = v` when `k` is already a key of `d`: the value at
`k` is replaced in place. (All entries with key `k` are rewritten; a Python
dict has a single entry per key.) -/
def dSet {β : Type} : List (String × β) → String → β → List (String × β)
  | [], _, _ => []
  | e :: t, k, v => (if e.1 = k then (k, v) else e) :: dSet t k v

/-- Membership test of `fai.py` line 19: `data[key] in [None, "", [], {},
"none (not provided on the DL)", "Not available", "N/A", "NULL"]`. -/
def isSentinel : Value → Bool
  | .vNull => true
  | .vStr s => s == "" || s == "none (not provided on the DL)" ||
      s == "Not available" || s == "N/A" || s == "NULL"
  | .vList l => l.isEmpty
  | .vDict l => l.isEmpty
  | _ => false

/-- Value rewriting applied by the loop body of `fill_missing_fields`. -/
def fillVal (v : Value) : Value :=
  if isSentinel v then .vStr "na" else v

/-- Model of `fill_missing_fields` (`fai.py` lines 17-21). The Python loop
`for key in data` visits exactly the keys present in `data`, so the
`key not in data` test on line 19 is always false inside the loop and the
function never adds an absent key; it only rewrites present sentinel values
to `"na"`. -/
def fill_missing_fields (d : PyDict) : PyDict :=
  d.map (fun e => (e.1, fillVal e.2))

/-- Characters treated as whitespace by Python `str.strip()` (ASCII range;
the inputs here are header/field strings, so the Unicode cases do not arise). -/
def pyIsSpace (c : Char) : Bool :=
  c == ' ' || c == '\t' || c == '\n' || c == '\r' ||
    c == Char.ofNat 11 || c == Char.ofNat 12

/-- Model of Python `s.replace("\x22", "")`: delete every double-quote char. -/
def removeQuotes (s : String) : String :=
  ⟨s.data.filter (fun c => c != '"')⟩

/-- Model of Python `s.strip()`: drop whitespace from both ends. -/
def pyStrip (s : String) : String :=
  ⟨List.rdropWhile pyIsSpace (List.dropWhile pyIsSpace s.data)⟩

/-- Model of `fai.py` lines 72-73: if `"height"` is present its value gets
`.replace("\x22", "").strip()`; calling these string methods on a non-string
value raises `AttributeError`, which the surrounding `try` of `process_image`
turns into a failure record. -/
def heightStep (d : PyDict) : Except String PyDict :=
  match dGet d "height" with
  | none => .ok d
  | some (.vStr s) => .ok (dSet d "height" (.vStr (pyStrip (removeQuotes s))))
  | some _ => .error "AttributeError: object has no attribute replace"

/-- Normalization as performed inline by `process_image` (`fai.py` lines
71-73): `fill_missing_fields` followed by the height quote-stripping step. -/
def normalizeRecord (d : PyDict) : Except String PyDict :=
  heightStep (fill_missing_fields d)

/-- Configuration subset of the argparse namespace used by `process_image`. -/
structure Args where
  input_dir : String
  face_dir : Option String

/-- Index of the last `.` in a character list, if any. -/
def lastDotIdx : List Char → Option Nat
  | [] => none
  | c :: rest =>
    match lastDotIdx rest with
    | some i => some (i + 1)
    | none => if c == '.' then some 0 else none

/-- Model of `os.path.splitext(filename)[0]` for a bare filename (no path
separator, as produced by `os.listdir`): cut at the last dot, unless every
character before it is a dot (then the name has no extension). -/
def splitextStem (s : String) : String :=
  match lastDotIdx s.data with
  | none => s
  | some d => if (s.data.take d).all (fun c => c == '.') then s else ⟨s.data.take d⟩

/-- Model of `os.path.join(a, b)` (posix rules, two components). -/
def pyJoin (a b : String) : String :=
  if b.data.head? = some '/' then b
  else if a.data = [] ∨ a.data.getLast? = some '/' then ⟨a.data ++ b.data⟩
  else ⟨a.data ++ '/' :: b.data⟩

/-- Face-crop output path of `fai.py` line 83:
`os.path.join(args.face_dir, f"{os.path.splitext(filename)[0]}_face.png")`. -/
def facePath (faceDir filename : String) : String :=
  pyJoin faceDir (splitextStem filename ++ "_face.png")

/-- Python truthiness of the values that can appear in a parsed record. -/
def truthy : Value → Bool
  | .vNull => false
  | .vBool b => b
  | .vNum n => n != 0
  | .vStr s => s != ""
  | .vList l => !l.isEmpty
  | .vDict l => !l.isEmpty

/-- Model of Python `len(x)`: defined for sized values, raises `TypeError`
otherwise. -/
def pyLen : Value → Except String Nat
  | .vStr s => .ok s.data.length
  | .vList l => .ok l.length
  | .vDict l => .ok l.length
  | _ => .error "TypeError: object has no len"

/-- Elements produced by iterating a sized Python value (used by
`map(int, face_bbox)`); iterating a string yields its one-character strings,
iterating a dict yields its keys. -/
def seqElems : Value → List Value
  | .vStr s => s.data.map (fun c => .vStr ⟨[c]⟩)
  | .vList l => l
  | .vDict l => l.map (fun e => .vStr e.1)
  | _ => []

/-- Digits-to-number accumulator for `pyParseInt`. -/
def natOfDigits (l : List Char) : Nat :=
  l.foldl (fun n c => n * 10 + (c.toNat - 48)) 0

/-- Model of Python `int(s)` on a string: strip whitespace, optional sign,
then decimal digits; anything else raises `ValueError`. -/
def pyParseInt (s : String) : Except String Int :=
  match (pyStrip s).data with
  | '-' :: ds =>
    if ds ≠ [] ∧ ds.all Char.isDigit then .ok (-(natOfDigits ds : Int))
    else .error "ValueError: invalid literal for int"
  | '+' :: ds =>
    if ds ≠ [] ∧ ds.all Char.isDigit then .ok (natOfDigits ds : Int)
    else .error "ValueError: invalid literal for int"
  | ds =>
    if ds ≠ [] ∧ ds.all Char.isDigit then .ok (natOfDigits ds : Int)
    else .error "ValueError: invalid literal for int"

/-- Model of Python `int(x)` on a pipeline value. -/
def toIntPy : Value → Except String Int
  | .vNum n => .ok n
  | .vBool b => .ok (if b then 1 else 0)
  | .vStr s => pyParseInt s
  | _ => .error "TypeError: int argument must be a string or a number"

/-- Model of `fai.py` lines 76-84, the face-crop block of `process_image`.
The PIL open/crop/save sequence is the opaque capability `cropSave`, taking
the source path, the output path, and the crop box `(x, y, x + w, y + h)`;
any of its failure modes (unopenable image, invalid box, failed save) is an
`Except.error`. Python tests `if args.face_dir:` (an empty string is falsy)
and `if face_bbox and len(face_bbox) == 4:`. -/
def cropStep (cropSave : String → String → Int × Int × Int × Int → Except String Unit)
    (filename : String) (args : Args) (parsed : PyDict) : Except String Unit :=
  match args.face_dir with
  | none => .ok ()
  | some fd =>
    if fd = "" then .ok ()
    else
      match dGet parsed "face_bbox" with
      | none => .ok ()
      | some bb =>
        if truthy bb then do
          let n ← pyLen bb
          if n = 4 then do
            let nums ← (seqElems bb).mapM toIntPy
            match nums with
            | [x, y, w, h] =>
              cropSave (pyJoin args.input_dir filename) (facePath fd filename)
                (x, y, x + w, y + h)
            | _ => .error "ValueError: unreachable given length 4"
          else .ok ()
        else .ok ()

/-- Body of the `try` block of `process_image` (`fai.py` lines 24-86).
The LLM request (lines 25-67) is the opaque capability `llmCall`, yielding
the response message content or a transport/inference error; `json.loads`
of that content (line 68) is the opaque capability `parseJson`, yielding the
parsed JSON object or a parse error. -/
def processBody (llmCall : Except String String)
    (parseJson : String → Except String PyDict)
    (cropSave : String → String → Int × Int × Int × Int → Except String Unit)
    (filename : String) (args : Args) : Except String PyDict := do
  let content ← llmCall
  let parsed0 ← parseJson content
  let parsed ← normalizeRecord parsed0
  cropStep cropSave filename args parsed
  return parsed

/-- Model of `process_image` (`fai.py` lines 23-88): the whole body runs in a
`try`; any raised exception `e` is converted to `(filename, {"error": str(e)})`. -/
def process_image (llmCall : Except String String)
    (parseJson : String → Except String PyDict)
    (cropSave : String → String → Int × Int × Int × Int → Except String Unit)
    (filename : String) (args : Args) : String × PyDict :=
  match processBody llmCall parseJson cropSave filename args with
  | .ok parsed => (filename, parsed)
  | .error e => (filename, [("error", .vStr e)])

/-- Model of Python dict assignment `d[k] = v` for result dictionaries:
replace the value if the key is present, append the entry otherwise. -/
def pyAssign (d : List (String × PyDict)) (k : String) (v : PyDict) :
    List (String × PyDict) :=
  if (dGet d k).isSome then dSet d k v else d ++ [(k, v)]

/-- Model of the result-collection loop of `main` (`fai.py` lines 111-118):
`output_data = {}` and then `output_data[filename] = result` for each worker
completion. The argument is the list of `(filename, result)` pairs returned
by the workers, in completion order. -/
def runBatch (completed : List (String × PyDict)) : List (String × PyDict) :=
  completed.foldl (fun acc fr => pyAssign acc fr.1 fr.2) []

/-- Single-quote character as a string (used by Python `repr`). -/
def squote : String := String.singleton (Char.ofNat 39)

/-- Comma-space join, as in a Python `repr` of a container. -/
def joinComma (l : List String) : String := String.intercalate ", " l

mutual

/-- Model of Python `repr` for pipeline values. -/
def pyRepr : Value → String
  | .vNull => "None"
  | .vBool true => "True"
  | .vBool false => "False"
  | .vNum n => toString n
  | .vStr s => squote ++ s ++ squote
  | .vList l => "[" ++ joinComma (pyReprList l) ++ "]"
  | .vDict l => "\x7b" ++ joinComma (pyReprEntries l) ++ "\x7d"

/-- Helper of `pyRepr` for list elements. -/
def pyReprList : List Value → List String
  | [] => []
  | v :: vs => pyRepr v :: pyReprList vs

/-- Helper of `pyRepr` for dict entries. -/
def pyReprEntries : List (String × Value) → List String
  | [] => []
  | (k, v) :: es => (squote ++ k ++ squote ++ ": " ++ pyRepr v) :: pyReprEntries es

end

/-- Model of Python `str(x)` for pipeline values: a string is itself, every
other value renders as its `repr`. -/
def pyStr : Value → String
  | .vStr s => s
  | v => pyRepr v

/-- Fixed ordered CSV field set of `fai.py` lines 141-144. -/
def csvFields : List String :=
  ["filename", "ID_type", "dl_number", "expiry", "name", "dob",
   "address", "sex", "height", "weight", "hair", "eyes", "face_bbox"]

/-- CSV data row for one `(filename, data)` entry (`fai.py` lines 148-154):
the `filename` cell, then `str(data.get(k, ""))` for each remaining field in
order. Both success and failure records are dicts, so the
`isinstance(data, dict)` test on line 150 always takes the first branch. -/
def csvRow (filename : String) (data : PyDict) : List String :=
  csvFields.map (fun k =>
    if k == "filename" then filename else pyStr ((dGet data k).getD (.vStr "")))

/-- Model of the CSV export (`fai.py` lines 139-154) as its list of rows:
the header row followed by one data row per `output_data` entry. -/
def csvExport (output_data : List (String × PyDict)) : List (List String) :=
  csvFields :: output_data.map (fun fd => csvRow fd.1 fd.2)

/-- Model of the TXT export (`fai.py` lines 130-136) as its list of lines. -/
def txtLines (output_data : List (String × PyDict)) : List String :=
  (output_data.map (fun fd =>
    ("Filename: " ++ fd.1) ::
      fd.2.map (fun kv => "  " ++ kv.1 ++ ": " ++ pyStr kv.2) ++ [""])).flatten

/-- Observable effect of the save-results section of `main`
(`fai.py` lines 124-157). -/
inductive ExportAction where
  | writeJson : String → List (String × PyDict) → ExportAction
  | writeTxt : String → List String → ExportAction
  | writeCsv : String → List (List String) → ExportAction
  | unsupported : String → ExportAction

/-- Model of Python `str.lower()` for the ASCII format strings compared by
the export dispatch. -/
def pyLower (s : String) : String := ⟨s.data.map Char.toLower⟩

/-- Model of the export dispatch of `main` (`fai.py` lines 124-157): the
format string is lowered with `.lower()` and compared against the three
supported encodings; any other format falls through to the final `else`,
which only prints a message and writes no file. -/
def exportStep (fmt outputPath : String) (output_data : List (String × PyDict)) :
    ExportAction :=
  if pyLower fmt == "json" then .writeJson outputPath output_data
  else if pyLower fmt == "txt" then .writeTxt outputPath (txtLines output_data)
  else if pyLower fmt == "csv" then .writeCsv outputPath (csvExport output_data)
  else .unsupported fmt

/-- Whether an export action writes the output file. -/
def writesFile : ExportAction → Bool
  | .unsupported _ => false
  | _ => true

/-- Console message printed by each export branch. -/
def exportMessage : ExportAction → String
  | .writeJson p _ => "Output saved to " ++ p
  | .writeTxt p _ => "TXT output saved to " ++ p
  | .writeCsv p _ => "CSV output saved to " ++ p
  | .unsupported fmt => "Output format " ++ squote ++ fmt ++ squote ++ " not supported."

/-- Base64 alphabet (RFC 4648, as used by Python `base64.b64encode`). -/
def b64Alphabet : List Char :=
  "ABCDEFGHIJKLMNOPQRSTUVWXYZabcdefghijklmnopqrstuvwxyz0123456789+/".data

/-- Character of the base64 alphabet at a 6-bit index. -/
def b64Char (n : Nat) : Char := b64Alphabet.getD n '='

/-- Base64 encoding of a byte list (bytes as naturals below 256), with the
standard `=` padding, modelling `base64.b64encode(...).decode("utf-8")`. -/
def base64Encode : List Nat → String
  | [] => ""
  | [b1] => ⟨[b64Char (b1 / 4), b64Char (b1 % 4 * 16), '=', '=']⟩
  | [b1, b2] =>
    ⟨[b64Char (b1 / 4), b64Char (b1 % 4 * 16 + b2 / 16), b64Char (b2 % 16 * 4), '=']⟩
  | b1 :: b2 :: b3 :: rest =>
    (⟨[b64Char (b1 / 4), b64Char (b1 % 4 * 16 + b2 / 16),
       b64Char (b2 % 16 * 4 + b3 / 64), b64Char (b3 % 64)]⟩ : String) ++
      base64Encode rest

/-- Model of `encode_image` (`fai.py` lines 11-15): read the file at
`os.path.join(image_folder, filename)` (the filesystem is the capability
`readBytes`), base64-encode it, and return the filename with a data URI
whose media type is always `image/png`. -/
def encode_image (readBytes : String → List Nat) (image_folder filename : String) :
    String × String :=
  (filename, "data:image/png;base64," ++ base64Encode (readBytes (pyJoin image_folder filename)))

/-! ### Helper lemmas about the dictionary operations -/

theorem dGet_fill (d : PyDict) (k : String) :
    dGet (fill_missing_fields d) k = (dGet d k).map fillVal := by
  induction d with
  | nil => rfl
  | cons e t ih =>
    by_cases h : e.1 = k <;> simp [dGet, fill_missing_fields, h] <;>
      simpa [fill_missing_fields] using ih

theorem dGet_dSet_self (d : PyDict) (k : String) (v w : Value)
    (h : dGet d k = some w) : dGet (dSet d k v) k = some v := by
  induction d with
  | nil => simp [dGet] at h
  | cons e t ih =>
    by_cases he : e.1 = k
    · simp [dGet, dSet, he]
    · simp [dGet, dSet, he] at h ⊢
      exact ih h

theorem dGet_dSet_ne (d : PyDict) (k k' : String) (v : Value) (h : k' ≠ k) :
    dGet (dSet d k v) k' = dGet d k' := by
  induction d with
  | nil => rfl
  | cons e t ih =>
    by_cases he : e.1 = k
    · have hkk : ¬(k = k') := fun hh => h hh.symm
      simp [dGet, dSet, he, hkk, ih]
    · by_cases he' : e.1 = k' <;> simp [dGet, dSet, he, he', h, ih]

theorem dSet_dSet (d : PyDict) (k : String) (v v₂ : Value) :
    dSet (dSet d k v) k v₂ = dSet d k v₂ := by
  induction d with
  | nil => rfl
  | cons e t ih =>
    by_cases he : e.1 = k <;> simp [dSet, he, ih]

theorem fillVal_not_sentinel (v : Value) : isSentinel (fillVal v) = false := by
  unfold fillVal
  split
  · decide
  · rename_i h
    simpa using h

theorem fill_eq_self (d : PyDict) (h : ∀ e ∈ d, isSentinel e.2 = false) :
    fill_missing_fields d = d := by
  unfold fill_missing_fields
  have : ∀ e ∈ d, (e.1, fillVal e.2) = e := by
    intro e he
    have := h e he
    simp [fillVal, this]
  calc d.map (fun e => (e.1, fillVal e.2)) = d.map id := List.map_congr_left this
  _ = d := List.map_id d

/-! ### Helper lemmas about quote stripping -/

theorem pyStrip_mem {c : Char} {s : String} (h : c ∈ (pyStrip s).data) :
    c ∈ s.data := by
  unfold pyStrip at h
  have h1 : c ∈ List.dropWhile pyIsSpace s.data := by
    have hp := List.rdropWhile_prefix pyIsSpace (List.dropWhile pyIsSpace s.data)
    exact hp.sublist.subset h
  exact ((List.dropWhile_suffix pyIsSpace).sublist.subset) h1

theorem removeQuotes_no_quote {c : Char} {s : String}
    (h : c ∈ (removeQuotes s).data) : (c != '"') = true := by
  unfold removeQuotes at h
  exact (List.mem_filter.mp h).2

theorem removeQuotes_eq_self (s : String)
    (h : ∀ c ∈ s.data, (c != '"') = true) : removeQuotes s = s := by
  unfold removeQuotes
  rw [List.filter_eq_self.mpr h]

theorem dropWhile_self_of_append {α : Type} (p : α → Bool) (a b : List α)
    (h : List.dropWhile p (a ++ b) = a ++ b) : List.dropWhile p a = a := by
  cases a with
  | nil => rfl
  | cons x xs =>
    rw [List.cons_append, List.dropWhile_cons] at h
    by_cases hx : p x
    · exfalso
      rw [if_pos hx] at h
      have hlen := congrArg List.length h
      have hle := (List.dropWhile_suffix (l := xs ++ b) p).sublist.length_le
      simp only [List.length_cons, List.length_append] at hlen hle
      omega
    · rw [List.dropWhile_cons, if_neg hx]

theorem pyStrip_idem (s : String) : pyStrip (pyStrip s) = pyStrip s := by
  unfold pyStrip
  congr 1
  obtain ⟨tl, htl⟩ := List.rdropWhile_prefix pyIsSpace (List.dropWhile pyIsSpace s.data)
  have hidem : List.dropWhile pyIsSpace
      (List.rdropWhile pyIsSpace (List.dropWhile pyIsSpace s.data) ++ tl) =
      List.rdropWhile pyIsSpace (List.dropWhile pyIsSpace s.data) ++ tl := by
    rw [htl]
    exact List.dropWhile_idempotent pyIsSpace s.data
  have hdrop := dropWhile_self_of_append pyIsSpace _ tl hidem
  rw [hdrop, List.rdropWhile_idempotent]

theorem stripHeight_idem (s : String) :
    pyStrip (removeQuotes (pyStrip (removeQuotes s))) = pyStrip (removeQuotes s) := by
  have h1 : removeQuotes (pyStrip (removeQuotes s)) = pyStrip (removeQuotes s) := by
    apply removeQuotes_eq_self
    intro c hc
    exact removeQuotes_no_quote (pyStrip_mem hc)
  rw [h1, pyStrip_idem]

/-! ### Claim theorems -/

/-- C1: the claim says every field of the fixed canonical set that is missing
from the raw mapping is rewritten to "na" so that no fixed field is ever
absent. The loop of `fill_missing_fields` iterates only over the keys
present in `data`, so an absent field is never added: on a raw mapping
holding only `ID_type`, the output still has no `name` entry. -/
theorem fill_missing_leaves_absent_fields_absent :
    fill_missing_fields [("ID_type", Value.vStr "DL")] =
      [("ID_type", Value.vStr "DL")] ∧
    dGet (fill_missing_fields [("ID_type", Value.vStr "DL")]) "name" = none ∧
    dGet (fill_missing_fields []) "name" = none :=
  ⟨rfl, rfl, rfl⟩

/-- C10: `encode_image` pairs the unchanged filename with a data URI whose
media-type tag is always `image/png`, for every input file, whatever its
extension (the filename, e.g. one ending in `.jpg`, is arbitrary here). -/
theorem encode_image_always_png_tag (readBytes : String → List Nat)
    (image_folder filename : String) :
    (encode_image readBytes image_folder filename).1 = filename ∧
    ∃ rest, (encode_image readBytes image_folder filename).2 =
      "data:image/png;base64," ++ rest :=
  ⟨rfl, base64Encode (readBytes (pyJoin image_folder filename)), rfl⟩

/-- C9: for any output format whose lowercasing is none of `json`, `txt`,
`csv`, the export dispatch falls through to the final `else`: it performs no
write, only prints the not-supported message, and cannot raise (it is a
total function of the configuration). -/
theorem export_unknown_format_no_write (fmt outputPath : String)
    (output_data : List (String × PyDict))
    (hj : pyLower fmt ≠ "json") (ht : pyLower fmt ≠ "txt")
    (hc : pyLower fmt ≠ "csv") :
    exportStep fmt outputPath output_data = .unsupported fmt ∧
    writesFile (exportStep fmt outputPath output_data) = false ∧
    exportMessage (exportStep fmt outputPath output_data) =
      "Output format " ++ squote ++ fmt ++ squote ++ " not supported." := by
  have h : exportStep fmt outputPath output_data = .unsupported fmt := by
    simp [exportStep, hj, ht, hc]
  exact ⟨h, by rw [h]; rfl, by rw [h]; rfl⟩

/-- Witness for C9 at the concrete format string "xml". -/
theorem export_unknown_format_no_write_witness :
    (pyLower "xml" ≠ "json" ∧ pyLower "xml" ≠ "txt" ∧ pyLower "xml" ≠ "csv") ∧
    exportStep "xml" "out.json" [] = .unsupported "xml" ∧
    writesFile (exportStep "xml" "out.json" []) = false ∧
    exportMessage (exportStep "xml" "out.json" []) =
      "Output format " ++ squote ++ "xml" ++ squote ++ " not supported." :=
  ⟨⟨by decide, by decide, by decide⟩,
    export_unknown_format_no_write "xml" "out.json" []
      (by decide) (by decide) (by decide)⟩

/-- C8: the CSV export is the fixed ordered header row followed by exactly
one data row per batch entry, and the row built for a failure record
`{"error": e}` renders every data field except `filename` as the empty
string (its dict has none of the 12 data keys, so each cell is
`str(data.get(k, ""))` of the default). -/
theorem csv_export_shape (output_data : List (String × PyDict)) :
    (csvExport output_data).length = output_data.length + 1 ∧
    (csvExport output_data).head? = some csvFields ∧
    ∀ filename e, csvRow filename [("error", Value.vStr e)] =
      filename :: List.replicate 12 "" := by
  refine ⟨by simp [csvExport], rfl, fun filename e => ?_⟩
  rfl

/-- C3: `process_image` is a total function of its inputs; whatever the
outcome of the body (inference transport error, parse error, height
`AttributeError`, crop failure, or success), the returned pair carries the
filename of the item together with exactly one of the normalized record (on
success) or the failure record `{"error": e}` (on any internal failure). -/
theorem process_image_never_raises (llmCall : Except String String)
    (parseJson : String → Except String PyDict)
    (cropSave : String → String → Int × Int × Int × Int → Except String Unit)
    (filename : String) (args : Args) :
    (process_image llmCall parseJson cropSave filename args).1 = filename ∧
    ((∃ d, processBody llmCall parseJson cropSave filename args = .ok d ∧
        (process_image llmCall parseJson cropSave filename args).2 = d) ∨
     (∃ e, processBody llmCall parseJson cropSave filename args = .error e ∧
        (process_image llmCall parseJson cropSave filename args).2 =
          [("error", Value.vStr e)])) := by
  unfold process_image
  cases h : processBody llmCall parseJson cropSave filename args with
  | ok d => exact ⟨rfl, .inl ⟨d, rfl, rfl⟩⟩
  | error e => exact ⟨rfl, .inr ⟨e, rfl, rfl⟩⟩

theorem splitextStem_mem {c : Char} {f : String}
    (h : c ∈ (splitextStem f).data) : c ∈ f.data := by
  unfold splitextStem at h
  cases hl : lastDotIdx f.data with
  | none => rw [hl] at h; exact h
  | some d =>
    rw [hl] at h
    dsimp only at h
    by_cases hall : ((f.data.take d).all fun c => c == '.') = true
    · rw [if_pos hall] at h; exact h
    · rw [if_neg hall] at h; exact (List.take_sublist d f.data).subset h

/-- Counterexample to C7: the stems of `a.png` and `a.jpg` coincide after
`os.path.splitext` strips the extension, so two distinct source filenames
derive the same face-crop output path. -/
theorem face_path_collision :
    facePath "faces" "a.png" = facePath "faces" "a.jpg" ∧
    ("a.png" : String) ≠ "a.jpg" :=
  ⟨rfl, by decide⟩

/-- C7 (amended): the face-crop path is derived by stripping the extension
and appending `_face.png`; derived paths are distinct for source filenames
with distinct stems (filenames that differ only in their extension, such as
`a.png` and `a.jpg`, do collide). Directory entries contain no slash. -/
theorem face_path_injective_on_stems (dir f g : String)
    (hf : ∀ c ∈ f.data, c ≠ '/') (hg : ∀ c ∈ g.data, c ≠ '/')
    (hst : splitextStem f ≠ splitextStem g) :
    facePath dir f ≠ facePath dir g := by
  intro heq
  apply hst
  have hne : ∀ (s : String), (∀ c ∈ s.data, c ≠ '/') →
      ¬((splitextStem s ++ "_face.png").data.head? = some '/') := by
    intro s hs hcontra
    rw [String.data_append] at hcontra
    cases hstem : (splitextStem s).data with
    | nil => rw [hstem] at hcontra; simp at hcontra
    | cons c0 cs =>
      rw [hstem] at hcontra
      simp at hcontra
      have hc0 : c0 ∈ (splitextStem s).data := by
        rw [hstem]; exact List.mem_cons_self c0 cs
      exact hs c0 (splitextStem_mem hc0) hcontra
  unfold facePath pyJoin at heq
  rw [if_neg (hne f hf), if_neg (hne g hg)] at heq
  by_cases hdir : dir.data = [] ∨ dir.data.getLast? = some '/'
  · rw [if_pos hdir, if_pos hdir] at heq
    have h2 := congrArg String.data heq
    have h3 := List.append_cancel_left h2
    rw [String.data_append, String.data_append] at h3
    exact congrArg String.mk (List.append_cancel_right h3)
  · rw [if_neg hdir, if_neg hdir] at heq
    have h2 := congrArg String.data heq
    have h3 := List.append_cancel_left h2
    have h4 : (splitextStem f ++ "_face.png").data =
        (splitextStem g ++ "_face.png").data := by
      injection h3
    rw [String.data_append, String.data_append] at h4
    exact congrArg String.mk (List.append_cancel_right h4)

/-- Witness for C7 (amended) at `a.png` versus `b.jpg`. -/
theorem face_path_injective_on_stems_witness :
    splitextStem "a.png" ≠ splitextStem "b.jpg" ∧
    facePath "faces" "a.png" ≠ facePath "faces" "b.jpg" :=
  ⟨by decide, face_path_injective_on_stems "faces" "a.png" "b.jpg"
    (by decide) (by decide) (by decide)⟩

theorem exceptBind_ok {ε α β : Type} (a : α) (f : α → Except ε β) :
    (Except.ok a >>= f) = f a := rfl

theorem exceptBind_error {ε α β : Type} (e : ε) (f : α → Except ε β) :
    ((Except.error e : Except ε α) >>= f) = .error e := rfl

theorem exceptPure_eq_ok {ε α : Type} (a : α) :
    (pure a : Except ε α) = .ok a := rfl

/-- Counterexample to C2: face-crop output is configured
(`face_dir = "faces"`), the parsed record carries a 4-element bounding box,
and the inference and parse steps succeed, yet a failure inside the
face-cropping step (here: the image cannot be opened) makes `process_image`
return the failure record instead of the canonical record, because the crop
runs inside the same `try`/`except` as the rest of the worker. The last two
conjuncts exhibit the canonical record that normalization had already
produced and that the claim says should have been returned. -/
theorem crop_failure_downgrades_result :
    process_image (.ok "response")
      (fun _ => .ok [("face_bbox", Value.vList [.vNum 0, .vNum 0, .vNum 10, .vNum 10])])
      (fun _ _ _ => .error "cannot identify image file") "a.png"
      { input_dir := "in", face_dir := some "faces" } =
      ("a.png", [("error", Value.vStr "cannot identify image file")]) ∧
    normalizeRecord [("face_bbox", Value.vList [.vNum 0, .vNum 0, .vNum 10, .vNum 10])] =
      .ok [("face_bbox", Value.vList [.vNum 0, .vNum 0, .vNum 10, .vNum 10])] ∧
    [("error", Value.vStr "cannot identify image file")] ≠
      [("face_bbox", Value.vList [.vNum 0, .vNum 0, .vNum 10, .vNum 10])] := by
  refine ⟨rfl, rfl, fun hcontra => ?_⟩
  exact absurd (congrArg (fun d : PyDict => (dGet d "error").isSome) hcontra) (by decide)

/-- C2 (amended): when face-crop output is configured, a 4-element bounding
box is present, and every earlier step succeeded, a failure inside the
face-cropping step is caught by the surrounding `except` of the worker and
converted into a FailureRecord: the worker does not raise, but it returns
`{"error": e}` for the item instead of the CanonicalRecord — the crop error
does downgrade the extraction result. -/
theorem crop_failure_yields_failure_record
    (content : String) (d d2 : PyDict) (filename fd e : String) (args : Args)
    (bb : Value) (x y w h : Int)
    (hfd : args.face_dir = some fd) (hne : ¬fd = "")
    (hnorm : normalizeRecord d = .ok d2)
    (hbb : dGet d2 "face_bbox" = some bb) (htr : truthy bb = true)
    (hlen : pyLen bb = .ok 4)
    (hints : (seqElems bb).mapM toIntPy = .ok [x, y, w, h]) :
    process_image (.ok content) (fun _ => .ok d) (fun _ _ _ => .error e)
      filename args = (filename, [("error", Value.vStr e)]) := by
  have hcrop : cropStep (fun _ _ _ => .error e) filename args d2 = .error e := by
    unfold cropStep
    rw [hfd]
    dsimp only
    rw [if_neg hne, hbb]
    dsimp only
    rw [if_pos htr, hlen, exceptBind_ok, if_pos rfl, hints, exceptBind_ok]
  have hbody : processBody (.ok content) (fun _ => .ok d)
      (fun _ _ _ => .error e) filename args = .error e := by
    unfold processBody
    simp only [exceptBind_ok]
    rw [hnorm]
    simp only [exceptBind_ok]
    rw [hcrop]
    rfl
  unfold process_image
  rw [hbody]

/-- Witness for C2 (amended) at a concrete configuration and bounding box. -/
theorem crop_failure_yields_failure_record_witness :
    normalizeRecord [("face_bbox", Value.vList [.vNum 0, .vNum 0, .vNum 10, .vNum 10])] =
      .ok [("face_bbox", Value.vList [.vNum 0, .vNum 0, .vNum 10, .vNum 10])] ∧
    process_image (.ok "response")
      (fun _ => .ok [("face_bbox", Value.vList [.vNum 0, .vNum 0, .vNum 10, .vNum 10])])
      (fun _ _ _ => .error "boom") "a.png"
      { input_dir := "in", face_dir := some "faces" } =
      ("a.png", [("error", Value.vStr "boom")]) :=
  ⟨rfl, crop_failure_yields_failure_record "response"
    [("face_bbox", Value.vList [.vNum 0, .vNum 0, .vNum 10, .vNum 10])]
    [("face_bbox", Value.vList [.vNum 0, .vNum 0, .vNum 10, .vNum 10])]
    "a.png" "faces" "boom" { input_dir := "in", face_dir := some "faces" }
    (Value.vList [.vNum 0, .vNum 0, .vNum 10, .vNum 10]) 0 0 10 10
    rfl (by decide) rfl rfl rfl rfl rfl⟩

theorem dGet_eq_none_of_not_mem {β : Type} (d : List (String × β)) (k : String)
    (h : k ∉ d.map Prod.fst) : dGet d k = none := by
  induction d with
  | nil => rfl
  | cons e t ih =>
    rw [List.map_cons] at h
    have h1 : ¬(e.1 = k) := fun hh => h (hh ▸ List.mem_cons_self e.1 (t.map Prod.fst))
    have h2 : k ∉ t.map Prod.fst := fun hh => h (List.mem_cons_of_mem _ hh)
    simp [dGet, h1, ih h2]

theorem runBatch_go (l : List (String × PyDict)) : ∀ acc : List (String × PyDict),
    (l.map Prod.fst).Nodup → (∀ kk ∈ l.map Prod.fst, kk ∉ acc.map Prod.fst) →
    l.foldl (fun a fr => pyAssign a fr.1 fr.2) acc = acc ++ l := by
  induction l with
  | nil => intro acc _ _; simp
  | cons e t ih =>
    intro acc hnd hfresh
    rw [List.foldl_cons]
    have hfr : e.1 ∉ acc.map Prod.fst := hfresh e.1 (by simp)
    have hassign : pyAssign acc e.1 e.2 = acc ++ [(e.1, e.2)] := by
      unfold pyAssign
      rw [dGet_eq_none_of_not_mem acc e.1 hfr]
      simp
    rw [hassign]
    rw [List.map_cons] at hnd hfresh
    have hnd' : (t.map Prod.fst).Nodup := hnd.of_cons
    have hfresh' : ∀ kk ∈ t.map Prod.fst, kk ∉ (acc ++ [(e.1, e.2)]).map Prod.fst := by
      intro kk hkk
      rw [List.map_append]
      intro hmem
      rcases List.mem_append.mp hmem with hA | hB
      · exact hfresh kk (List.mem_cons_of_mem _ hkk) hA
      · have hk1 : kk = e.1 := by simpa using hB
        exact (List.nodup_cons.mp hnd).1 (hk1 ▸ hkk)
    rw [ih (acc ++ [(e.1, e.2)]) hnd' hfresh']
    simp

theorem runBatch_eq_completed (completed : List (String × PyDict))
    (hnd : (completed.map Prod.fst).Nodup) : runBatch completed = completed := by
  unfold runBatch
  simpa using runBatch_go completed [] hnd (by intro kk _; simp)

/-- C6: the collection loop of `main` inserts each completed worker result
under its filename; for input items with pairwise-distinct filenames and any
concurrency between 1 and N, the resulting batch dictionary has exactly N
entries whose keys are exactly the input filenames, for every completion
order (any permutation of the submitted items). The thread-pool size `c`
does not influence the collected dictionary. -/
theorem scheduler_cardinality (results completed : List (String × PyDict)) (c : Nat)
    (hperm : completed.Perm results)
    (hnd : (results.map Prod.fst).Nodup)
    (hc1 : 1 ≤ c) (hcN : c ≤ results.length) :
    (runBatch completed).length = results.length ∧
    ((runBatch completed).map Prod.fst).Perm (results.map Prod.fst) := by
  have hnd2 : (completed.map Prod.fst).Nodup := (hperm.map Prod.fst).nodup_iff.mpr hnd
  rw [runBatch_eq_completed completed hnd2]
  exact ⟨hperm.length_eq, hperm.map Prod.fst⟩

/-- Item used by the C6 witness: a successful record. -/
def batchItemA : String × PyDict := ("a.png", [("name", Value.vStr "Ann")])

/-- Item used by the C6 witness: a failure record. -/
def batchItemB : String × PyDict := ("b.jpg", [("error", Value.vStr "boom")])

/-- Witness for C6: two items completing in the reverse of submission order,
with concurrency 1. -/
theorem scheduler_cardinality_witness :
    (runBatch [batchItemB, batchItemA]).length = [batchItemA, batchItemB].length ∧
    ((runBatch [batchItemB, batchItemA]).map Prod.fst).Perm
      ([batchItemA, batchItemB].map Prod.fst) :=
  scheduler_cardinality [batchItemA, batchItemB] [batchItemB, batchItemA] 1
    (List.Perm.swap batchItemA batchItemB []) (by decide) (by decide) (by decide)

/-- Counterexample to C4: a present, non-sentinel, non-string `height` value
(the integer 70) is neither rewritten to "na" nor preserved: the height
quote-stripping step calls `.replace` on it, which raises `AttributeError`,
so normalization produces no record at all (the worker then returns a
FailureRecord). -/
theorem normalize_nonstring_height_error :
    normalizeRecord [("height", Value.vNum 70)] =
      .error "AttributeError: object has no attribute replace" ∧
    isSentinel (Value.vNum 70) = false ∧
    (∀ d2, normalizeRecord [("height", Value.vNum 70)] ≠ .ok d2) :=
  ⟨rfl, rfl, fun _ h => nomatch h⟩

/-- C4 (amended): for every key present in the raw mapping, provided
normalization succeeds (which requires the `height` value, when present and
non-sentinel, to be a string), the normalizer maps the value to "na" exactly
when it is in the sentinel set, and otherwise preserves it unchanged —
except for `height`, whose string value additionally has its double-quote
characters removed and surrounding whitespace stripped. -/
theorem normalize_maps_values (d d2 : PyDict) (hn : normalizeRecord d = .ok d2)
    (k : String) (v : Value) (hk : dGet d k = some v) :
    (isSentinel v = true → dGet d2 k = some (.vStr "na")) ∧
    (isSentinel v = false → k ≠ "height" → dGet d2 k = some v) ∧
    (isSentinel v = false → k = "height" →
      ∃ s, v = .vStr s ∧ dGet d2 k = some (.vStr (pyStrip (removeQuotes s)))) := by
  unfold normalizeRecord heightStep at hn
  have hfk : dGet (fill_missing_fields d) k = some (fillVal v) := by
    rw [dGet_fill, hk]; rfl
  cases hH : dGet (fill_missing_fields d) "height" with
  | none =>
    rw [hH] at hn
    injection hn with hd2
    subst hd2
    refine ⟨?_, ?_, ?_⟩
    · intro hs; rw [hfk]; simp [fillVal, hs]
    · intro hs _; rw [hfk]; simp [fillVal, hs]
    · intro _ hkh
      subst hkh
      rw [hfk] at hH
      exact absurd hH (by simp)
  | some hv =>
    rw [hH] at hn
    cases hv with
    | vStr s0 =>
      injection hn with hd2
      subst hd2
      by_cases hkh : k = "height"
      · subst hkh
        have hfv : fillVal v = .vStr s0 := by
          rw [hfk] at hH
          injection hH
      
        refine ⟨?_, ?_, ?_⟩
        · intro hs
          have hs0 : s0 = "na" := by
            have : Value.vStr "na" = Value.vStr s0 := by
              rw [← hfv]; simp [fillVal, hs]
            injection this with h2
            exact h2.symm
          subst hs0
          rw [dGet_dSet_self _ _ _ _ hH]
          have hna : pyStrip (removeQuotes "na") = "na" := by decide
          rw [hna]
        · intro _ hcontra; exact absurd rfl hcontra
        · intro hs _
          have hv' : v = .vStr s0 := by rw [← hfv]; simp [fillVal, hs]
          exact ⟨s0, hv', by rw [dGet_dSet_self _ _ _ _ hH]⟩
      · refine ⟨?_, ?_, ?_⟩
        · intro hs; rw [dGet_dSet_ne _ _ _ _ hkh, hfk]; simp [fillVal, hs]
        · intro hs _; rw [dGet_dSet_ne _ _ _ _ hkh, hfk]; simp [fillVal, hs]
        · intro _ hcontra; exact absurd hcontra hkh
    | vNull => exact Except.noConfusion hn
    | vBool b => exact Except.noConfusion hn
    | vNum n => exact Except.noConfusion hn
    | vList l => exact Except.noConfusion hn
    | vDict l => exact Except.noConfusion hn

/-- Witness for C4 (amended): a sentinel `name` is rewritten to "na", a
non-sentinel `sex` is preserved, on a record whose normalization succeeds. -/
theorem normalize_maps_values_witness :
    normalizeRecord [("name", Value.vStr ""), ("sex", Value.vStr "M")] =
      .ok [("name", Value.vStr "na"), ("sex", Value.vStr "M")] ∧
    dGet [("name", Value.vStr "na"), ("sex", Value.vStr "M")] "name" =
      some (Value.vStr "na") ∧
    dGet [("name", Value.vStr "na"), ("sex", Value.vStr "M")] "sex" =
      some (Value.vStr "M") :=
  ⟨rfl,
    (normalize_maps_values [("name", Value.vStr ""), ("sex", Value.vStr "M")]
      [("name", Value.vStr "na"), ("sex", Value.vStr "M")] rfl "name"
      (Value.vStr "") rfl).1 rfl,
    ((normalize_maps_values [("name", Value.vStr ""), ("sex", Value.vStr "M")]
      [("name", Value.vStr "na"), ("sex", Value.vStr "M")] rfl "sex"
      (Value.vStr "M") rfl).2).1 rfl (by decide)⟩

theorem fill_values_not_sentinel (d : PyDict) :
    ∀ e ∈ fill_missing_fields d, isSentinel e.2 = false := by
  intro e he
  unfold fill_missing_fields at he
  obtain ⟨e0, _, rfl⟩ := List.mem_map.mp he
  exact fillVal_not_sentinel e0.2

theorem mem_dSet {β : Type} (d : List (String × β)) (k : String) (v : β) :
    ∀ e ∈ dSet d k v, e = (k, v) ∨ e ∈ d := by
  induction d with
  | nil => intro e he; cases he
  | cons e0 t ih =>
    intro e he
    rcases List.mem_cons.mp he with h | h
    · by_cases h0 : e0.1 = k
      · rw [if_pos h0] at h; exact .inl h
      · rw [if_neg h0] at h; exact .inr (h ▸ List.mem_cons_self e0 t)
    · rcases ih e h with h2 | h2
      · exact .inl h2
      · exact .inr (List.mem_cons_of_mem _ h2)

/-- Counterexample to C5: a `height` of two double-quote characters is not a
sentinel, so the first normalization pass keeps it and then strips the
quotes, producing the empty string; the second pass sees the empty string,
which is a sentinel, and rewrites it to "na". Hence
`normalize(normalize(x)) != normalize(x)`. -/
theorem normalize_not_idempotent :
    normalizeRecord [("height", Value.vStr "\"\"")] =
      .ok [("height", Value.vStr "")] ∧
    normalizeRecord [("height", Value.vStr "")] =
      .ok [("height", Value.vStr "na")] ∧
    ([("height", Value.vStr "na")] : PyDict) ≠ [("height", Value.vStr "")] := by
  refine ⟨rfl, rfl, fun hcontra => ?_⟩
  have h2 := congrArg (fun d : PyDict =>
    match dGet d "height" with | some (.vStr s) => s | _ => "") hcontra
  exact absurd h2 (by decide)

/-- C5 (amended): normalization is idempotent on every raw mapping whose
normalized `height` (if present) is not itself a sentinel — i.e. unless the
quote/whitespace-stripped height becomes the empty string or another
sentinel string such as "N/A", a second normalization pass returns the
normalized record unchanged. -/
theorem normalize_idempotent_unless_height_strips_to_sentinel
    (x y : PyDict) (hn : normalizeRecord x = .ok y)
    (hh : ∀ v, dGet y "height" = some v → isSentinel v = false) :
    normalizeRecord y = .ok y := by
  unfold normalizeRecord heightStep at hn
  cases hH : dGet (fill_missing_fields x) "height" with
  | none =>
    rw [hH] at hn
    injection hn with hy
    subst hy
    have hfix : fill_missing_fields (fill_missing_fields x) = fill_missing_fields x :=
      fill_eq_self _ (fill_values_not_sentinel x)
    unfold normalizeRecord heightStep
    rw [hfix, hH]
  | some hv =>
    rw [hH] at hn
    cases hv with
    | vStr s0 =>
      injection hn with hy
      subst hy
      have hgety : dGet (dSet (fill_missing_fields x) "height"
          (.vStr (pyStrip (removeQuotes s0)))) "height" =
          some (.vStr (pyStrip (removeQuotes s0))) :=
        dGet_dSet_self _ _ _ _ hH
      have hts : isSentinel (Value.vStr (pyStrip (removeQuotes s0))) = false :=
        hh _ hgety
      have hvals : ∀ e ∈ dSet (fill_missing_fields x) "height"
          (.vStr (pyStrip (removeQuotes s0))), isSentinel e.2 = false := by
        intro e he
        rcases mem_dSet _ _ _ e he with h | h
        · rw [h]; exact hts
        · exact fill_values_not_sentinel x e h
      have hfix := fill_eq_self _ hvals
      unfold normalizeRecord heightStep
      rw [hfix, hgety]
      dsimp only
      rw [stripHeight_idem s0, dSet_dSet]
    | vNull => exact Except.noConfusion hn
    | vBool b => exact Except.noConfusion hn
    | vNum n => exact Except.noConfusion hn
    | vList l => exact Except.noConfusion hn
    | vDict l => exact Except.noConfusion hn

/-- Witness for C5 (amended): a height of " 5-10 " strips to "5-10", which
is not a sentinel, and renormalizing is then a no-op. -/
theorem normalize_idempotent_witness :
    normalizeRecord [("height", Value.vStr " 5-10 ")] =
      .ok [("height", Value.vStr "5-10")] ∧
    normalizeRecord [("height", Value.vStr "5-10")] =
      .ok [("height", Value.vStr "5-10")] :=
  ⟨rfl, normalize_idempotent_unless_height_strips_to_sentinel
    [("height", Value.vStr " 5-10 ")] [("height", Value.vStr "5-10")] rfl
    (fun v hv => by injection hv with h2; subst h2; decide)⟩
